import Mathlib

/-!
Verification of the exploration core of the browser-use page-exploration
repository.  The Python sources are shallowly embedded: the mutable
`PageExplorationWorkflow` state (`pages`, `tree_structure`) becomes an explicit
state record threaded through the step functions, browser and language-model
effects become environment parameters, floats used only in order comparisons
become rationals, and fallible steps return an explicit error component.
-/

/-- Result of the language model's analysis of one element
(`ElementAnalysis` dataclass in `page_exploration.py`). Only the fields the
orchestrator consumes are carried; `importance_score` is the float used in the
partition thresholds, embedded as a rational. -/
structure ElementAnalysis where
  element_id : String
  element_type : String
  purpose : String
  possible_actions : List String
  importance_score : ℚ
  interaction_hints : List String
  related_elements : List String
deriving DecidableEq, Repr

/-- A DOM element as it appears as a value of the selector map
(`DOMElementNode`): tag name, attribute mapping, highlight index and the
native clickability flag read by `getattr(element, 'is_clickable', False)`. -/
structure DOMElementNode where
  tag_name : String
  attributes : List (String × String)
  highlight_index : Nat
  is_clickable : Bool
deriving DecidableEq, Repr

/-- Frozen history snapshot of a DOM element (`DOMHistoryElement`): the fields
that `_convert_history_element_to_dict` serializes and that
`explore_recursively` reads back (`attributes["href"]`). -/
structure DOMHistoryElement where
  tag_name : String
  attributes : List (String × String)
  highlight_index : Nat
deriving DecidableEq, Repr

/-- Embedding of `_convert_to_history_element`: the history snapshot keeps the
tag, attributes and highlight index of the live element. -/
def convertToHistoryElement (e : DOMElementNode) : DOMHistoryElement :=
  ⟨e.tag_name, e.attributes, e.highlight_index⟩

/-- Page-level analysis result (`PagePurpose` dataclass). -/
structure PagePurpose where
  main_purpose : String
  key_features : List String
  ui_elements_summary : String
  user_flows : List String
  key_interaction_points : List String
deriving DecidableEq, Repr

/-- Where the partition loop of `explore_page` (lines 325-334) puts one
selector-map entry. -/
inductive ElemClass where
  | clickable
  | selected
  | dropped
deriving DecidableEq, Repr

/-- Embedding of the Python expression `analysis and analysis.importance_score > t`:
true exactly when an analysis is present and its score is strictly above `t`. -/
def importanceAbove (a : Option ElementAnalysis) (t : ℚ) : Bool :=
  match a with
  | some an => decide (t < an.importance_score)
  | none => false

/-- The `if is_clickable or (analysis and analysis.importance_score > 0.7) ...
elif analysis and analysis.importance_score > 0.4 ...` cascade of
`explore_page`, deciding the destination of one selector-map entry. -/
def classifyElement (e : DOMElementNode) (a : Option ElementAnalysis) : ElemClass :=
  if e.is_clickable || importanceAbove a (7/10) then ElemClass.clickable
  else if importanceAbove a (4/10) then ElemClass.selected
  else ElemClass.dropped

/-- Embedding of the partition loop of `explore_page`: walk the selector map in
capture order, look up each index in the analyzed-elements mapping, and append
the history snapshot to the clickable or selected list per `classifyElement`. -/
def elementPartition (selector_map : List (Nat × DOMElementNode))
    (analyzed : List (Nat × ElementAnalysis)) :
    List DOMHistoryElement × List DOMHistoryElement :=
  match selector_map with
  | [] => ([], [])
  | (idx, e) :: rest =>
    let p := elementPartition rest analyzed
    match classifyElement e (List.lookup idx analyzed) with
    | ElemClass.clickable => (convertToHistoryElement e :: p.1, p.2)
    | ElemClass.selected => (p.1, convertToHistoryElement e :: p.2)
    | ElemClass.dropped => p

/-- A node of the exploration tree (`PageNode` dataclass). -/
structure PageNode where
  url : String
  title : String
  parent_url : Option String
  clickable_elements : List DOMHistoryElement
  selected_elements : List DOMHistoryElement
  analyzed_elements : List (Nat × ElementAnalysis)
  notes : List (String × String)
  timestamp : String
  screenshot : Option String
  page_purpose : Option PagePurpose
deriving DecidableEq, Repr

/-- What the browser plus language-model environment yields for one successful
page visit inside `explore_page`: the title, the captured selector map, the
per-element analyses that came back non-`None`, and the remaining captured
data. -/
structure VisitData where
  title : String
  selector_map : List (Nat × DOMElementNode)
  analyses : List (Nat × ElementAnalysis)
  timestamp : String
  screenshot : String
  page_purpose : Option PagePurpose
deriving DecidableEq, Repr

/-- The mutable crawl state of `PageExplorationWorkflow`: `self.pages` and
`self.tree_structure`, embedded as insertion-ordered association lists. -/
structure WorkflowState where
  pages : List (String × PageNode)
  tree_structure : List (String × List String)
deriving DecidableEq, Repr

/-- Embedding of `if parent_url not in self.tree_structure:
self.tree_structure[parent_url] = []` followed by
`self.tree_structure[parent_url].append(url)`: append the child to the
parent's list, creating the key at the end on first use. -/
def appendChild (tree : List (String × List String)) (parent child : String) :
    List (String × List String) :=
  match tree with
  | [] => [(parent, [child])]
  | (p, l) :: rest =>
    if p = parent then (p, l ++ [child]) :: rest
    else (p, l) :: appendChild rest parent child

/-- Embedding of `PageExplorationWorkflow.explore_page`.  The environment
`env` maps a url to the outcome of visiting it: `none` models a falsy
`state_summary` (early return), `some v` a successful capture.  Re-entry on a
url already in `pages` returns the state unchanged; otherwise the element
partition is computed, the `PageNode` inserted, and the url appended under its
parent in the tree structure. -/
def explorePage (env : String → Option VisitData) (url : String)
    (parent_url : Option String) (s : WorkflowState) : WorkflowState :=
  if (List.lookup url s.pages).isSome then s
  else
    match env url with
    | none => s
    | some v =>
      let p := elementPartition v.selector_map v.analyses
      let node : PageNode :=
        { url := url
          title := v.title
          parent_url := parent_url
          clickable_elements := p.1
          selected_elements := p.2
          analyzed_elements := v.analyses
          notes := []
          timestamp := v.timestamp
          screenshot := some v.screenshot
          page_purpose := v.page_purpose }
      let pages2 := s.pages ++ [(url, node)]
      match parent_url with
      | none => { pages := pages2, tree_structure := s.tree_structure }
      | some pu => { pages := pages2, tree_structure := appendChild s.tree_structure pu url }

/-- Embedding of Python `s.startswith(p)`: `p`'s characters are an initial
segment of `s`'s characters. -/
def pyStartsWith (s p : String) : Bool :=
  p.data.isPrefixOf s.data

/-- Embedding of Python `s.endswith(p)`: `p`'s characters are a final segment
of `s`'s characters. -/
def pyEndsWith (s p : String) : Bool :=
  p.data.isSuffixOf s.data

/-- Result of a recursive exploration step: the crawl state together with an
optional propagating error (`none` = normal return).  The Python `KeyError`
raised by `self.pages[url]` when the visit recorded nothing is the one error
the embedded recursion can produce; the state reached so far survives it,
as `self.pages` does in Python. -/
abbrev ExploreResult := WorkflowState × Option String

/-- Embedding of the `for element in page_node.clickable_elements` loop of the
inner `explore` function: elements whose `attributes.get("href")` is present,
non-empty (Python truthiness) and starts with `start_url` trigger the
recursive call `rec`; a propagating error stops the loop. -/
def exploreChildren (rec : String → WorkflowState → ExploreResult)
    (start_url url : String) :
    List DOMHistoryElement → WorkflowState → ExploreResult
  | [], s => (s, none)
  | e :: rest, s =>
    match List.lookup "href" e.attributes with
    | none => exploreChildren rec start_url url rest s
    | some h =>
      if h ≠ "" ∧ pyStartsWith h start_url then
        match rec h s with
        | (s2, none) => exploreChildren rec start_url url rest s2
        | (s2, some err) => (s2, some err)
      else exploreChildren rec start_url url rest s

/-- Embedding of the inner recursive `explore(url, depth, parent_url)` of
`explore_recursively`, with a structural fuel argument standing in for the
call stack; `exploreFuel_fuel_irrelevant` below shows any fuel above the
depth budget gives the same result, so the fuel is not observable.  The body
mirrors the source: return when `depth > max_depth`, visit via `explorePage`,
read `self.pages[url]` (a missing entry is the Python `KeyError`), then
recurse over the clickable elements with `depth + 1` and parent `url`. -/
def exploreFuel (env : String → Option VisitData) (start_url : String)
    (max_depth : Nat) (fuel : Nat) (url : String) (depth : Nat)
    (parent_url : Option String) (s : WorkflowState) : ExploreResult :=
  match fuel with
  | 0 => (s, some "fuel exhausted")
  | f + 1 =>
    if max_depth < depth then (s, none)
    else
      let s1 := explorePage env url parent_url s
      match List.lookup url s1.pages with
      | none => (s1, some "KeyError: url not in pages")
      | some node =>
        exploreChildren
          (fun h t => exploreFuel env start_url max_depth f h (depth + 1) (some url) t)
          start_url url node.clickable_elements s1

/-- Embedding of `explore_recursively(start_url, max_depth)`: run the inner
`explore` at `start_url` with depth 1; the fuel `max_depth + 2` is enough for
the whole recursion (`exploreFuel_fuel_irrelevant`). -/
def exploreRecursively (env : String → Option VisitData) (start_url : String)
    (max_depth : Nat) (s : WorkflowState) : ExploreResult :=
  exploreFuel env start_url max_depth (max_depth + 2) start_url 1 none s

/-- The hrefs, in element order, on which the children loop recurses: the
`attributes.get("href")` value when it is present, non-empty and starts with
`start_url`. -/
def recursionTargets (start_url : String) (elems : List DOMHistoryElement) :
    List String :=
  elems.filterMap (fun e =>
    match List.lookup "href" e.attributes with
    | none => none
    | some h => if h ≠ "" ∧ pyStartsWith h start_url then some h else none)

/-- Sequential execution of one recursive call per target url, stopping at the
first propagating error; the reference shape against which the children loop
is characterized. -/
def runCalls (rec : String → WorkflowState → ExploreResult) :
    List String → WorkflowState → ExploreResult
  | [], s => (s, none)
  | h :: rest, s =>
    match rec h s with
    | (s2, none) => runCalls rec rest s2
    | (s2, some err) => (s2, some err)

/-- Number of occurrences of `u` in a list of urls. -/
def countOcc (u : String) : List String → Nat
  | [] => 0
  | x :: rest => (if x = u then 1 else 0) + countOcc u rest

/-- Number of occurrences of `u` across all child lists of the tree
structure. -/
def childCount (tree : List (String × List String)) (u : String) : Nat :=
  match tree with
  | [] => 0
  | (_, l) :: rest => countOcc u l + childCount rest u

/-- The tree-consistency invariant of the crawl state: every url in a child
list of `tree_structure` is a key of `pages`; a url recorded with a parent
occurs exactly once as a child; a root url occurs in no child list. -/
def TreeInvariant (s : WorkflowState) : Prop :=
  (∀ p l, (p, l) ∈ s.tree_structure → ∀ u, u ∈ l → (List.lookup u s.pages).isSome) ∧
  (∀ u n, (u, n) ∈ s.pages →
    (n.parent_url.isSome → childCount s.tree_structure u = 1) ∧
    (n.parent_url = none → childCount s.tree_structure u = 0))

/-- A clickable element record of `browser_use/player/service.py`:
`elem.get("selector")` may be absent or any string. -/
structure PElement where
  selector : Option String
deriving DecidableEq, Repr

/-- A page state as built by `Player.load_page` / `capture_current_page_state`,
reduced to the parts the traversal control flow reads: the url and the
clickable elements collected on it. -/
structure PPage where
  url : String
  elements : List PElement
deriving DecidableEq, Repr

/-- State of a `Player` run: `visited_pages`, the operation-tree edges added by
`add_child_node` (parent url, child url) in insertion order, and the scripted
outcomes of the remaining controller actions — `clicks` holds, per click
action, `none` for a failed click and `some page` for a successful click
landing on `page`; `backs` holds the success flag of each `go_back` action.
An exhausted script means the action fails. -/
structure PlayerState where
  visited : List String
  tree : List (String × String)
  clicks : List (Option PPage)
  backs : List Bool
deriving DecidableEq, Repr

/-- Consume the next scripted click outcome. -/
def popClick (s : PlayerState) : Option PPage × PlayerState :=
  match s.clicks with
  | [] => (none, s)
  | c :: rest => (c, { s with clicks := rest })

/-- Consume the next scripted back-navigation outcome. -/
def popBack (s : PlayerState) : Bool × PlayerState :=
  match s.backs with
  | [] => (false, s)
  | b :: rest => (b, { s with backs := rest })

/-- Embedding of the `for elem in elements` loop of `Player.explore_page`:
skip elements with a falsy selector; on click failure log and continue with
the next element; on click success record the child edge, recurse via `rec`
into the new page, then `go_back` — if the back navigation fails, `return`
from this call (dropping only the remaining siblings of this level). -/
def playerExploreElements (rec : PPage → PlayerState → PlayerState)
    (url : String) : List PElement → PlayerState → PlayerState
  | [], s => s
  | e :: rest, s =>
    match e.selector with
    | none => playerExploreElements rec url rest s
    | some sel =>
      if sel = "" then playerExploreElements rec url rest s
      else
        let pc := popClick s
        match pc.1 with
        | none => playerExploreElements rec url rest pc.2
        | some newPage =>
          let s2 := { pc.2 with tree := pc.2.tree ++ [(url, newPage.url)] }
          let s3 := rec newPage s2
          let pb := popBack s3
          if pb.1 then playerExploreElements rec url rest pb.2
          else pb.2

/-- Embedding of `Player.explore_page`: return if the url was already visited,
otherwise mark it visited and run the element loop.  The fuel bounds the
recursion depth; the Python recursion is bounded by the growth of
`visited_pages` instead, and every concrete scenario below uses ample fuel. -/
def playerExplorePage : Nat → PPage → PlayerState → PlayerState
  | 0, _, s => s
  | f + 1, page, s =>
    if page.url ∈ s.visited then s
    else
      playerExploreElements (playerExplorePage f) page.url page.elements
        { s with visited := s.visited ++ [page.url] }

/-- Which language model `PageExplorationWorkflow._invoke_llm` is currently
holding: the constructor-supplied primary model, or the DeepSeek model
installed by the fallback. -/
inductive LLMModel where
  | primary
  | deepseek
deriving DecidableEq, Repr

/-- Outcome of one `ainvoke` call on the current model:
success, a `FailedPrecondition` whose text contains
"User location is not supported", or any other failure. -/
inductive LLMOutcome where
  | ok (resp : String)
  | failUnsupportedRegion
  | failOther
deriving DecidableEq, Repr

/-- The failure kinds `_invoke_llm` can let propagate to its caller. -/
inductive LLMFailure where
  | unsupportedRegion
  | other
deriving DecidableEq, Repr

/-- The adapter state mutated by `_invoke_llm`: the current model and the
`llm_switched_to_deepseek` flag. -/
structure AdapterState where
  llm : LLMModel
  llm_switched_to_deepseek : Bool
deriving DecidableEq, Repr

/-- What `_invoke_llm` hands back to its caller: a returned response or a
raised failure. -/
inductive InvokeResult where
  | ok (resp : String)
  | raised (e : LLMFailure)
deriving DecidableEq, Repr

/-- Result of `_invoke_llm`: the returned or propagated outcome, the adapter
state after the call (mutations performed before a raised retry survive, as
they do on `self`), and the number of `ainvoke` calls issued. -/
structure InvokeOutcome where
  result : InvokeResult
  state : AdapterState
  calls : Nat
deriving DecidableEq, Repr

/-- Embedding of `PageExplorationWorkflow._invoke_llm`.  `hasDeepseekApiKey`
models the `DEEPSEEK_API_KEY` environment variable, `o1` the outcome of the
first `ainvoke` on the current model and `o2` the outcome of the retry on the
DeepSeek model when the fallback fires. -/
def invokeLLM (hasDeepseekApiKey : Bool) (o1 o2 : LLMOutcome)
    (s : AdapterState) : InvokeOutcome :=
  match o1 with
  | LLMOutcome.ok r => ⟨InvokeResult.ok r, s, 1⟩
  | LLMOutcome.failOther => ⟨InvokeResult.raised LLMFailure.other, s, 1⟩
  | LLMOutcome.failUnsupportedRegion =>
    if s.llm_switched_to_deepseek then ⟨InvokeResult.raised LLMFailure.unsupportedRegion, s, 1⟩
    else if !hasDeepseekApiKey then ⟨InvokeResult.raised LLMFailure.unsupportedRegion, s, 1⟩
    else
      let s2 : AdapterState := ⟨LLMModel.deepseek, true⟩
      match o2 with
      | LLMOutcome.ok r => ⟨InvokeResult.ok r, s2, 2⟩
      | LLMOutcome.failUnsupportedRegion => ⟨InvokeResult.raised LLMFailure.unsupportedRegion, s2, 2⟩
      | LLMOutcome.failOther => ⟨InvokeResult.raised LLMFailure.other, s2, 2⟩

/-- A JSON value, the abstract result of `json.loads`. -/
inductive JsonValue where
  | null
  | bool (b : Bool)
  | num (q : ℚ)
  | str (s : String)
  | arr (items : List JsonValue)
  | obj (fields : List (String × JsonValue))
deriving Repr

/-- Subscripting `analysis[key]` on a parsed JSON value: defined on objects
holding the key, the Python `KeyError` / `TypeError` otherwise. -/
def jsonGet (j : JsonValue) (k : String) : Option JsonValue :=
  match j with
  | JsonValue.obj fields => List.lookup k fields
  | _ => none

/-- Embedding of `_extract_json_from_llm_response`: strip a ```json fenced
block, else a plain ``` fenced block, else return the content unchanged. -/
def extractJsonFromLLMResponse (content : String) : String :=
  if (content.splitOn "```json").length > 1 then
    (((((content.splitOn "```json").get? 1).getD "").splitOn "```").headD "").trim
  else if (content.splitOn "```").length > 1 then
    ((((content.splitOn "```").get? 1).getD "")).trim
  else content

/-- The raw element analysis built from a successfully parsed response, each
field holding whatever JSON value the response supplied (the Python dataclass
performs no validation). -/
structure RawElementAnalysis where
  element_id : String
  element_type : String
  purpose : JsonValue
  possible_actions : JsonValue
  importance_score : JsonValue
  interaction_hints : JsonValue
  related_elements : JsonValue
deriving Repr

/-- The raw page purpose built from a successfully parsed response. -/
structure RawPagePurpose where
  main_purpose : JsonValue
  key_features : JsonValue
  ui_elements_summary : JsonValue
  user_flows : JsonValue
  key_interaction_points : JsonValue
deriving Repr

/-- Error-artifact file written on a JSON decode failure: path (relative to
the output directory) and the text persisted there. -/
abbrev Artifact := String × String

/-- Embedding of the tail of `_analyze_element_with_llm`, from the extracted
`json_content` on.  `parse` is the external `json.loads` (`none` =
`JSONDecodeError`), `ts` the timestamp used in the artifact name.  Parse
failure writes the offending text under `llm_json_errors` and returns `none`
without raising; a parsed response yields the analysis, or the Python
key-access error when a field is missing. -/
def analyzeElementFromJson (parse : String → Option JsonValue) (ts : String)
    (element_id element_type : String) (json_content : String) :
    Except String (Option RawElementAnalysis) × List Artifact :=
  match parse json_content with
  | none =>
    (Except.ok none,
      [("llm_json_errors/element_analysis_error_" ++ ts ++ ".json", json_content)])
  | some j =>
    match jsonGet j "purpose", jsonGet j "possible_actions", jsonGet j "importance_score",
        jsonGet j "interaction_hints", jsonGet j "related_elements" with
    | some p, some pa, some sc, some ih, some re =>
      (Except.ok (some ⟨element_id, element_type, p, pa, sc, ih, re⟩), [])
    | _, _, _, _, _ => (Except.error "KeyError", [])

/-- Embedding of the tail of `_analyze_page_purpose`, from the extracted
`json_content` on; analogous to `analyzeElementFromJson` with its own artifact
name and fields. -/
def analyzePagePurposeFromJson (parse : String → Option JsonValue) (ts : String)
    (json_content : String) :
    Except String (Option RawPagePurpose) × List Artifact :=
  match parse json_content with
  | none =>
    (Except.ok none,
      [("llm_json_errors/page_purpose_error_" ++ ts ++ ".json", json_content)])
  | some j =>
    match jsonGet j "main_purpose", jsonGet j "key_features", jsonGet j "ui_elements_summary",
        jsonGet j "user_flows", jsonGet j "key_interaction_points" with
    | some mp, some kf, some ui, some uf, some kip =>
      (Except.ok (some ⟨mp, kf, ui, uf, kip⟩), [])
    | _, _, _, _, _ => (Except.error "KeyError", [])

/-- The element-analysis path applied to the raw response content: extract the
body, then parse and handle as in `_analyze_element_with_llm`. -/
def analyzeElementWithLLM (parse : String → Option JsonValue) (ts : String)
    (element_id element_type : String) (responseContent : String) :
    Except String (Option RawElementAnalysis) × List Artifact :=
  analyzeElementFromJson parse ts element_id element_type
    (extractJsonFromLLMResponse responseContent)

/-- The page-purpose path applied to the raw response content. -/
def analyzePagePurposeWithLLM (parse : String → Option JsonValue) (ts : String)
    (responseContent : String) :
    Except String (Option RawPagePurpose) × List Artifact :=
  analyzePagePurposeFromJson parse ts (extractJsonFromLLMResponse responseContent)

/-- Modelled from the spec: split a character sequence at the first
scheme separator `://`, returning the scheme characters and the remainder
(`BrowserSession._is_url_allowed` is not under `src/`, only its test is). -/
def splitSchemeRest (l : List Char) : Option (List Char × List Char) :=
  match l with
  | [] => none
  | ':' :: '/' :: '/' :: rest => some ([], rest)
  | c :: rest =>
    match splitSchemeRest rest with
    | none => none
    | some (scheme, tail) => some (c :: scheme, tail)

/-- Modelled from the spec: parse a URL into its port-stripped host, returning
`none` when the input does not split into a non-empty scheme and a non-empty
host (`BrowserSession._is_url_allowed` is not under `src/`). -/
def urlHost (url : String) : Option String :=
  match splitSchemeRest url.data with
  | none => none
  | some (scheme, rest) =>
    if scheme = [] then none
    else
      let netloc := rest.takeWhile (fun c => c ≠ '/')
      let host := netloc.takeWhile (fun c => c ≠ ':')
      if host = [] then none else some ⟨host⟩

/-- Modelled from the spec: a bare-domain pattern matches only the exact
host; a leading-wildcard pattern matches the bare suffix and any subdomain of
it, per the expectations of `TestBrowserContext.test_is_url_allowed`
(`BrowserSession._is_url_allowed` is not under `src/`). -/
def matchesDomainPattern (pattern host : String) : Bool :=
  if pyStartsWith pattern "*." then
    host.data = pattern.data.drop 2 || pyEndsWith host ⟨'.' :: pattern.data.drop 2⟩
  else host = pattern

/-- Modelled from the spec: `isAllowed(url, allowedPatterns)` — with no
pattern list any parseable URL is allowed; an unparseable URL is always
rejected; otherwise the port-stripped host must match some pattern
(`BrowserSession._is_url_allowed` is not under `src/`). -/
def isUrlAllowed (url : String) (allowed_domains : Option (List String)) : Bool :=
  match allowed_domains with
  | none => (urlHost url).isSome
  | some pats =>
    match urlHost url with
    | none => false
    | some host => pats.any (fun p => matchesDomainPattern p host)

/-- Already-recorded results survive a traversal step: every visited url and
every recorded tree edge of `s` is still present in `t`. -/
def playerPreserves (s t : PlayerState) : Prop :=
  (∀ u, u ∈ s.visited → u ∈ t.visited) ∧ (∀ ed, ed ∈ s.tree → ed ∈ t.tree)

/-- Concrete history element carrying an in-origin href, used in the C2
scenario. -/
def cexHrefElem : DOMHistoryElement :=
  ⟨"a", [("href", "http://a/b")], 1⟩

/-- Concrete recorded root page whose clickable elements still point at an
unvisited url. -/
def cexNodeA : PageNode :=
  ⟨"http://a", "A", none, [cexHrefElem], [], [], [], "t0", none, none⟩

/-- Crawl state in which `http://a` is already recorded but its child is
not. -/
def cexStateA : WorkflowState :=
  ⟨[("http://a", cexNodeA)], []⟩

/-- Visit outcome for the child url in the C2 scenario. -/
def cexVisit : VisitData :=
  ⟨"B", [], [], "t1", "shot", none⟩

/-- Environment for the C2 scenario: only the child url yields a capture. -/
def cexEnv : String → Option VisitData :=
  fun u => if u = "http://a/b" then some cexVisit else none

/-- Player scenario: leaf pages. -/
def pageD : PPage := ⟨"D", []⟩

/-- Player scenario: leaf page reached from B. -/
def pageC : PPage := ⟨"C", []⟩

/-- Player scenario: page B with two clickable elements; the back navigation
after its first child fails. -/
def pageB : PPage := ⟨"B", [⟨some "b1"⟩, ⟨some "b2"⟩]⟩

/-- Player scenario: root page A with two clickable elements. -/
def pageA : PPage := ⟨"A", [⟨some "a1"⟩, ⟨some "a2"⟩]⟩

/-- Player scenario start state: scripted clicks land on B, C, D in turn; the
first back navigation (C back to B) fails, the later ones succeed. -/
def cexPlayerStart : PlayerState :=
  ⟨[], [], [some pageB, some pageC, some pageD], [false, true, true]⟩

theorem lookup_append {α β : Type} [BEq α] (u : α) (l1 l2 : List (α × β)) :
    List.lookup u (l1 ++ l2) = ((List.lookup u l1).or (List.lookup u l2)) := by
  induction l1 with
  | nil => simp
  | cons kv t ih =>
    obtain ⟨k, v⟩ := kv
    simp only [List.cons_append, List.lookup_cons]
    cases h : u == k <;> simp [ih]

theorem mem_lookup_isSome {α β : Type} [BEq α] [LawfulBEq α] {u : α} {n : β}
    {l : List (α × β)} (h : (u, n) ∈ l) : (List.lookup u l).isSome := by
  induction l with
  | nil => simp at h
  | cons kv t ih =>
    obtain ⟨k, v⟩ := kv
    rcases List.mem_cons.mp h with h1 | h1
    · obtain ⟨rfl, rfl⟩ := Prod.mk.injEq _ _ _ _ |>.mp h1
      simp [List.lookup_cons]
    · simp only [List.lookup_cons]
      cases hu : u == k
      · exact ih h1
      · simp

theorem countOcc_append (u : String) (l1 l2 : List String) :
    countOcc u (l1 ++ l2) = countOcc u l1 + countOcc u l2 := by
  induction l1 with
  | nil => simp [countOcc]
  | cons x t ih => simp [countOcc, ih]; omega

theorem mem_of_countOcc_ne_zero {u : String} {l : List String}
    (h : countOcc u l ≠ 0) : u ∈ l := by
  induction l with
  | nil => simp [countOcc] at h
  | cons x t ih =>
    by_cases hx : x = u
    · exact hx ▸ List.mem_cons_self x t
    · simp only [countOcc, if_neg hx, Nat.zero_add] at h
      exact List.mem_cons_of_mem x (ih h)

theorem countOcc_eq_zero_of_not_mem {u : String} {l : List String}
    (h : u ∉ l) : countOcc u l = 0 := by
  induction l with
  | nil => rfl
  | cons x t ih =>
    rw [List.mem_cons, not_or] at h
    have hx : ¬ x = u := fun e => h.1 e.symm
    simp [countOcc, hx, ih h.2]

theorem childCount_appendChild (t : List (String × List String)) (p c u : String) :
    childCount (appendChild t p c) u = childCount t u + (if c = u then 1 else 0) := by
  induction t with
  | nil => simp [appendChild, childCount, countOcc]
  | cons ql rest ih =>
    obtain ⟨q, l⟩ := ql
    by_cases hq : q = p
    · simp [appendChild, hq, childCount, countOcc_append, countOcc]
      omega
    · simp [appendChild, hq, childCount, ih]
      omega

theorem childCount_ne_zero_exists {t : List (String × List String)} {u : String}
    (h : childCount t u ≠ 0) : ∃ q l, (q, l) ∈ t ∧ u ∈ l := by
  induction t with
  | nil => simp [childCount] at h
  | cons ql rest ih =>
    obtain ⟨q, l⟩ := ql
    by_cases hc : countOcc u l = 0
    · have h2 : childCount rest u ≠ 0 := by
        simp only [childCount, hc, Nat.zero_add] at h
        exact h
      obtain ⟨q2, l2, hm, hu⟩ := ih h2
      exact ⟨q2, l2, List.mem_cons_of_mem _ hm, hu⟩
    · exact ⟨q, l, List.mem_cons_self _ _, mem_of_countOcc_ne_zero hc⟩

theorem appendChild_mem {t : List (String × List String)} {p c q : String}
    {l : List String} (h : (q, l) ∈ appendChild t p c) {u : String} (hu : u ∈ l) :
    (∃ l0, (q, l0) ∈ t ∧ u ∈ l0) ∨ u = c := by
  induction t with
  | nil =>
    simp only [appendChild, List.mem_singleton] at h
    obtain ⟨rfl, rfl⟩ := Prod.mk.injEq _ _ _ _ |>.mp h
    right
    rcases List.mem_singleton.mp hu with rfl
    rfl
  | cons ql rest ih =>
    obtain ⟨q1, l1⟩ := ql
    by_cases hq : q1 = p
    · simp only [appendChild, if_pos hq, List.mem_cons] at h
      rcases h with h1 | hmem
      · obtain ⟨rfl, rfl⟩ := Prod.mk.injEq _ _ _ _ |>.mp h1
        rcases List.mem_append.mp hu with h2 | h2
        · exact Or.inl ⟨l1, List.mem_cons_self _ _, h2⟩
        · exact Or.inr (List.mem_singleton.mp h2)
      · exact Or.inl ⟨l, List.mem_cons_of_mem _ hmem, hu⟩
    · simp only [appendChild, if_neg hq, List.mem_cons] at h
      rcases h with h1 | hmem
      · obtain ⟨rfl, rfl⟩ := Prod.mk.injEq _ _ _ _ |>.mp h1
        exact Or.inl ⟨l, List.mem_cons_self _ _, hu⟩
      · rcases ih hmem with ⟨l0, hm, hu0⟩ | hc
        · exact Or.inl ⟨l0, List.mem_cons_of_mem _ hm, hu0⟩
        · exact Or.inr hc

theorem explorePage_visited {env : String → Option VisitData} {url : String}
    {parent : Option String} {s : WorkflowState}
    (h : (List.lookup url s.pages).isSome) : explorePage env url parent s = s := by
  simp [explorePage, h]

theorem treeInvariant_insert (s : WorkflowState) (url : String)
    (parent : Option String) (node : PageNode)
    (hvn : List.lookup url s.pages = none) (hnode : node.parent_url = parent)
    (hs : TreeInvariant s) :
    TreeInvariant
      { pages := s.pages ++ [(url, node)],
        tree_structure :=
          match parent with
          | none => s.tree_structure
          | some pu => appendChild s.tree_structure pu url } := by
  obtain ⟨hs1, hs2⟩ := hs
  have hzero : childCount s.tree_structure url = 0 := by
    by_contra hne
    obtain ⟨q, l, hm, hu⟩ := childCount_ne_zero_exists hne
    have := hs1 q l hm url hu
    rw [hvn] at this
    simp at this
  have happend : ∀ u : String, (List.lookup u s.pages).isSome →
      (List.lookup u (s.pages ++ [(url, node)])).isSome := by
    intro u hu
    rw [lookup_append]
    obtain ⟨x, hx⟩ := Option.isSome_iff_exists.mp hu
    simp [hx]
  have hself : (List.lookup url (s.pages ++ [(url, node)])).isSome := by
    rw [lookup_append, hvn]
    simp [List.lookup_cons]
  cases parent with
  | none =>
    refine ⟨?_, ?_⟩
    · intro p l hm u hu
      exact happend u (hs1 p l hm u hu)
    · intro u n hm
      rcases List.mem_append.mp hm with h1 | h1
      · exact hs2 u n h1
      · obtain ⟨rfl, rfl⟩ := Prod.mk.injEq _ _ _ _ |>.mp (List.mem_singleton.mp h1)
        refine ⟨?_, fun _ => hzero⟩
        intro hps
        rw [hnode] at hps
        simp at hps
  | some pu =>
    refine ⟨?_, ?_⟩
    · intro p l hm u hu
      rcases appendChild_mem hm hu with ⟨l0, hm0, hu0⟩ | rfl
      · exact happend u (hs1 p l0 hm0 u hu0)
      · exact hself
    · intro u n hm
      rcases List.mem_append.mp hm with h1 | h1
      · have hold := hs2 u n h1
        have hu_ne : u ≠ url := by
          intro e
          subst e
          have := mem_lookup_isSome h1
          rw [hvn] at this
          simp at this
        have hcc : childCount (appendChild s.tree_structure pu url) u
            = childCount s.tree_structure u := by
          rw [childCount_appendChild, if_neg (Ne.symm hu_ne)]
          omega
        refine ⟨fun hp => ?_, fun hp => ?_⟩
        · rw [hcc]; exact hold.1 hp
        · rw [hcc]; exact hold.2 hp
      · obtain ⟨rfl, rfl⟩ := Prod.mk.injEq _ _ _ _ |>.mp (List.mem_singleton.mp h1)
        refine ⟨fun _ => ?_, fun hpn => ?_⟩
        · rw [childCount_appendChild, hzero, if_pos rfl]
        · rw [hnode] at hpn
          simp at hpn

theorem treeInvariant_explorePage (env : String → Option VisitData)
    (url : String) (parent : Option String) (s : WorkflowState)
    (hs : TreeInvariant s) : TreeInvariant (explorePage env url parent s) := by
  by_cases hv : (List.lookup url s.pages).isSome
  · rw [explorePage_visited hv]
    exact hs
  · have hvn : List.lookup url s.pages = none := Option.not_isSome_iff_eq_none.mp hv
    cases henv : env url with
    | none =>
      simp only [explorePage, hv, if_false, henv]
      exact hs
    | some v =>
      have := treeInvariant_insert s url parent
        { url := url
          title := v.title
          parent_url := parent
          clickable_elements := (elementPartition v.selector_map v.analyses).1
          selected_elements := (elementPartition v.selector_map v.analyses).2
          analyzed_elements := v.analyses
          notes := []
          timestamp := v.timestamp
          screenshot := some v.screenshot
          page_purpose := v.page_purpose } hvn rfl hs
      cases parent with
      | none =>
        simp only [explorePage, hv, if_false, henv]
        simpa using this
      | some pu =>
        simp only [explorePage, hv, if_false, henv]
        simpa using this

theorem treeInvariant_exploreChildren (rec : String → WorkflowState → ExploreResult)
    (start url : String)
    (hrec : ∀ h t, TreeInvariant t → TreeInvariant (rec h t).1) :
    ∀ (elems : List DOMHistoryElement) (s : WorkflowState), TreeInvariant s →
      TreeInvariant (exploreChildren rec start url elems s).1 := by
  intro elems
  induction elems with
  | nil =>
    intro s hs
    simpa [exploreChildren] using hs
  | cons e rest ih =>
    intro s hs
    simp only [exploreChildren]
    cases hlk : List.lookup "href" e.attributes with
    | none => exact ih s hs
    | some h =>
      by_cases hc : h ≠ "" ∧ pyStartsWith h start
      · simp only [if_pos hc]
        have hinv := hrec h s hs
        cases hr : rec h s with
        | mk s2 err =>
          rw [hr] at hinv
          cases err with
          | none => exact ih s2 hinv
          | some e2 => exact hinv
      · simp only [if_neg hc]
        exact ih s hs

theorem treeInvariant_exploreFuel (env : String → Option VisitData)
    (start : String) (maxd : Nat) :
    ∀ (fuel : Nat) (url : String) (depth : Nat) (parent : Option String)
      (s : WorkflowState), TreeInvariant s →
      TreeInvariant (exploreFuel env start maxd fuel url depth parent s).1 := by
  intro fuel
  induction fuel with
  | zero =>
    intro url depth parent s hs
    simpa [exploreFuel] using hs
  | succ f ih =>
    intro url depth parent s hs
    simp only [exploreFuel]
    by_cases hd : maxd < depth
    · simpa [if_pos hd] using hs
    · simp only [if_neg hd]
      have hs1 : TreeInvariant (explorePage env url parent s) :=
        treeInvariant_explorePage env url parent s hs
      cases hlk : List.lookup url (explorePage env url parent s).pages with
      | none => simpa [hlk] using hs1
      | some node =>
        simp only [hlk]
        exact treeInvariant_exploreChildren _ start url
          (fun h t ht => ih h (depth + 1) (some url) t ht)
          node.clickable_elements (explorePage env url parent s) hs1

theorem exploreChildren_eq_runCalls (rec : String → WorkflowState → ExploreResult)
    (start url : String) :
    ∀ (elems : List DOMHistoryElement) (s : WorkflowState),
      exploreChildren rec start url elems s = runCalls rec (recursionTargets start elems) s := by
  intro elems
  induction elems with
  | nil =>
    intro s
    simp [exploreChildren, recursionTargets, runCalls]
  | cons e rest ih =>
    intro s
    simp only [exploreChildren, recursionTargets, List.filterMap_cons]
    cases hlk : List.lookup "href" e.attributes with
    | none =>
      simpa [recursionTargets] using ih s
    | some h =>
      by_cases hc : h ≠ "" ∧ pyStartsWith h start
      · simp only [if_pos hc]
        cases hr : rec h s with
        | mk s2 err =>
          cases err with
          | none =>
            simp only [runCalls, hr]
            simpa [recursionTargets] using ih s2
          | some e2 =>
            simp only [runCalls, hr]
      · simp only [if_neg hc]
        simpa [recursionTargets] using ih s

theorem exploreChildren_congr {rec1 rec2 : String → WorkflowState → ExploreResult}
    (hr : ∀ h t, rec1 h t = rec2 h t) (start url : String) :
    ∀ (elems : List DOMHistoryElement) (s : WorkflowState),
      exploreChildren rec1 start url elems s = exploreChildren rec2 start url elems s := by
  intro elems
  induction elems with
  | nil => intro s; rfl
  | cons e rest ih =>
    intro s
    simp only [exploreChildren]
    cases hlk : List.lookup "href" e.attributes with
    | none => exact ih s
    | some h =>
      by_cases hc : h ≠ "" ∧ pyStartsWith h start
      · simp only [if_pos hc, hr h s]
        cases hr2 : rec2 h s with
        | mk s2 err =>
          cases err with
          | none => exact ih s2
          | some e2 => rfl
      · simp only [if_neg hc]
        exact ih s

theorem exploreFuel_fuel_irrelevant (env : String → Option VisitData)
    (start : String) (maxd : Nat) :
    ∀ (f g : Nat) (url : String) (depth : Nat) (parent : Option String)
      (s : WorkflowState),
      maxd + 2 - depth ≤ f → maxd + 2 - depth ≤ g → 1 ≤ f → 1 ≤ g →
      exploreFuel env start maxd f url depth parent s
        = exploreFuel env start maxd g url depth parent s := by
  intro f
  induction f with
  | zero =>
    intro g url depth parent s h1 h2 h3 h4
    omega
  | succ f1 ih =>
    intro g url depth parent s h1 h2 h3 h4
    cases g with
    | zero => omega
    | succ g1 =>
      simp only [exploreFuel]
      by_cases hd : maxd < depth
      · simp [if_pos hd]
      · simp only [if_neg hd]
        cases hlk : List.lookup url (explorePage env url parent s).pages with
        | none => simp [hlk]
        | some node =>
          simp only [hlk]
          exact exploreChildren_congr
            (fun h t => ih g1 h (depth + 1) (some url) t
              (by omega) (by omega) (by omega) (by omega))
            start url node.clickable_elements (explorePage env url parent s)

theorem playerPreserves_refl (s : PlayerState) : playerPreserves s s :=
  ⟨fun _ h => h, fun _ h => h⟩

theorem playerPreserves_trans {s t u : PlayerState}
    (h1 : playerPreserves s t) (h2 : playerPreserves t u) : playerPreserves s u :=
  ⟨fun x hx => h2.1 x (h1.1 x hx), fun x hx => h2.2 x (h1.2 x hx)⟩

theorem playerPreserves_popClick (s : PlayerState) :
    playerPreserves s (popClick s).2 := by
  cases hck : s.clicks <;> simp [popClick, hck, playerPreserves]

theorem playerPreserves_popBack (s : PlayerState) :
    playerPreserves s (popBack s).2 := by
  cases hbk : s.backs <;> simp [popBack, hbk, playerPreserves]

theorem playerPreserves_exploreElements
    (rec : PPage → PlayerState → PlayerState)
    (hrec : ∀ p s, playerPreserves s (rec p s)) (url : String) :
    ∀ (elems : List PElement) (s : PlayerState),
      playerPreserves s (playerExploreElements rec url elems s) := by
  intro elems
  induction elems with
  | nil =>
    intro s
    exact playerPreserves_refl s
  | cons e rest ih =>
    intro s
    simp only [playerExploreElements]
    split
    · exact ih s
    · split
      · exact ih s
      · split
        · exact playerPreserves_trans (playerPreserves_popClick s) (ih _)
        · split
          · refine playerPreserves_trans ?_ (ih _)
            refine playerPreserves_trans ?_ (playerPreserves_popBack _)
            refine playerPreserves_trans ?_ (hrec _ _)
            refine playerPreserves_trans (playerPreserves_popClick s) ?_
            refine ⟨fun u hu => hu, fun ed hed => ?_⟩
            simp only [List.mem_append]
            exact Or.inl hed
          · refine playerPreserves_trans ?_ (playerPreserves_popBack _)
            refine playerPreserves_trans ?_ (hrec _ _)
            refine playerPreserves_trans (playerPreserves_popClick s) ?_
            refine ⟨fun u hu => hu, fun ed hed => ?_⟩
            simp only [List.mem_append]
            exact Or.inl hed

theorem playerPreserves_explorePage :
    ∀ (fuel : Nat) (page : PPage) (s : PlayerState),
      playerPreserves s (playerExplorePage fuel page s) := by
  intro fuel
  induction fuel with
  | zero =>
    intro page s
    exact playerPreserves_refl s
  | succ f ih =>
    intro page s
    simp only [playerExplorePage]
    by_cases hv : page.url ∈ s.visited
    · simp only [if_pos hv]
      exact playerPreserves_refl s
    · simp only [if_neg hv]
      have h1 : playerPreserves s { s with visited := s.visited ++ [page.url] } := by
        refine ⟨fun u hu => ?_, fun ed hed => hed⟩
        simp only [List.mem_append]
        exact Or.inl hu
      exact playerPreserves_trans h1
        (playerPreserves_exploreElements (playerExplorePage f) ih page.url
          page.elements _)

theorem elementPartition_filterMap (m : List (Nat × DOMElementNode))
    (analyzed : List (Nat × ElementAnalysis)) :
    (elementPartition m analyzed).1 = m.filterMap (fun p =>
      if classifyElement p.2 (List.lookup p.1 analyzed) = ElemClass.clickable
      then some (convertToHistoryElement p.2) else none) ∧
    (elementPartition m analyzed).2 = m.filterMap (fun p =>
      if classifyElement p.2 (List.lookup p.1 analyzed) = ElemClass.selected
      then some (convertToHistoryElement p.2) else none) := by
  induction m with
  | nil => simp [elementPartition]
  | cons p rest ih =>
    obtain ⟨idx, e⟩ := p
    obtain ⟨ih1, ih2⟩ := ih
    cases hcl : classifyElement e (List.lookup idx analyzed) <;>
      simp [elementPartition, List.filterMap_cons, hcl, ih1, ih2]

/-- C1: the partition of the selector map uses strict thresholds: an entry
goes to `clickable_elements` exactly when it is natively clickable or its
analysis score is strictly above 0.7; it goes to `selected_elements` exactly
when it is not natively clickable and its score lies in (0.4, 0.7]; it is
dropped otherwise.  The second conjunct ties the classification to the two
lists actually built by `explore_page`, preserving capture order. -/
theorem claim_C1_partition_strict_thresholds :
    (∀ (e : DOMElementNode) (a : Option ElementAnalysis),
      (classifyElement e a = ElemClass.clickable ↔
        e.is_clickable = true ∨ ∃ an, a = some an ∧ 7/10 < an.importance_score) ∧
      (classifyElement e a = ElemClass.selected ↔
        e.is_clickable = false ∧
          ∃ an, a = some an ∧ 4/10 < an.importance_score ∧ an.importance_score ≤ 7/10)) ∧
    (∀ (m : List (Nat × DOMElementNode)) (analyzed : List (Nat × ElementAnalysis)),
      (elementPartition m analyzed).1 = m.filterMap (fun p =>
        if classifyElement p.2 (List.lookup p.1 analyzed) = ElemClass.clickable
        then some (convertToHistoryElement p.2) else none) ∧
      (elementPartition m analyzed).2 = m.filterMap (fun p =>
        if classifyElement p.2 (List.lookup p.1 analyzed) = ElemClass.selected
        then some (convertToHistoryElement p.2) else none)) := by
  refine ⟨?_, elementPartition_filterMap⟩
  intro e a
  cases a with
  | none =>
    cases hce : e.is_clickable <;> simp [classifyElement, importanceAbove, hce]
  | some an =>
    cases hce : e.is_clickable
    · by_cases h7 : (7 : ℚ)/10 < an.importance_score
      · simp [classifyElement, importanceAbove, hce, h7]
      · by_cases h4 : (4 : ℚ)/10 < an.importance_score
        · simp [classifyElement, importanceAbove, hce, h7, h4, not_lt.mp h7]
        · simp [classifyElement, importanceAbove, hce, h7, h4]
    · simp [classifyElement, importanceAbove, hce]

/-- C1 counterexample: a non-clickable element whose analysis score is exactly
0.7 is placed in `selected_elements`, not `clickable_elements` (the claim says
clickable), and one scoring exactly 0.4 is dropped (the claim says
selected). -/
theorem claim_C1_counterexample :
    classifyElement ⟨"div", [], 1, false⟩ (some ⟨"1", "div", "p", [], 7/10, [], []⟩)
        = ElemClass.selected ∧
    classifyElement ⟨"div", [], 1, false⟩ (some ⟨"1", "div", "p", [], 7/10, [], []⟩)
        ≠ ElemClass.clickable ∧
    elementPartition [(1, ⟨"div", [], 1, false⟩)] [(1, ⟨"1", "div", "p", [], 7/10, [], []⟩)]
        = ([], [⟨"div", [], 1⟩]) ∧
    classifyElement ⟨"div", [], 1, false⟩ (some ⟨"1", "div", "p", [], 4/10, [], []⟩)
        = ElemClass.dropped ∧
    elementPartition [(1, ⟨"div", [], 1, false⟩)] [(1, ⟨"1", "div", "p", [], 4/10, [], []⟩)]
        = ([], []) := by
  have h7 : classifyElement ⟨"div", [], 1, false⟩
      (some ⟨"1", "div", "p", [], 7/10, [], []⟩) = ElemClass.selected := by
    norm_num [classifyElement, importanceAbove]
  have h4 : classifyElement ⟨"div", [], 1, false⟩
      (some ⟨"1", "div", "p", [], 4/10, [], []⟩) = ElemClass.dropped := by
    norm_num [classifyElement, importanceAbove]
  refine ⟨h7, by simp [h7], ?_, h4, ?_⟩
  · simp [elementPartition, List.lookup, h7, convertToHistoryElement]
  · simp [elementPartition, List.lookup, h4]

/-- C8: a call of the inner `explore` with `depth > max_depth` returns the
crawl state unchanged and raises nothing: no page visit, no recursion, no
mutation of `pages` or `tree_structure`. -/
theorem claim_C8_depth_guard (env : String → Option VisitData)
    (start : String) (maxd fuel : Nat) (url : String) (depth : Nat)
    (parent : Option String) (s : WorkflowState) (h : maxd < depth) :
    exploreFuel env start maxd (fuel + 1) url depth parent s = (s, none) := by
  simp [exploreFuel, h]

/-- C8 witness: at depth 1 with depth bound 0 the state is returned intact. -/
theorem claim_C8_depth_guard_witness :
    0 < 1 ∧
    exploreFuel (fun _ => none) "http://s" 0 1 "http://u" 1 none ⟨[], []⟩
      = (⟨[], []⟩, none) :=
  ⟨Nat.zero_lt_one,
    claim_C8_depth_guard (fun _ => none) "http://s" 0 0 "http://u" 1 none ⟨[], []⟩
      Nat.zero_lt_one⟩

theorem pyStartsWith_empty_left {start : String} (h : start ≠ "") :
    pyStartsWith "" start = false := by
  unfold pyStartsWith
  cases hd : start.data with
  | nil => exact absurd (String.ext hd) h
  | cons c cs => rfl

/-- C2 (amended): re-entering `explore_page` on a url already in `pages`
leaves the whole crawl state unchanged; re-entering the inner `explore` on
such a url performs no re-insertion and no modification of the recorded
entry, but still proceeds to iterate the recorded node's clickable elements,
from the unchanged state. -/
theorem claim_C2_idempotent_visit :
    (∀ (env : String → Option VisitData) (url : String) (parent : Option String)
      (s : WorkflowState), (List.lookup url s.pages).isSome →
      explorePage env url parent s = s) ∧
    (∀ (env : String → Option VisitData) (start : String) (maxd fuel : Nat)
      (url : String) (depth : Nat) (parent : Option String) (s : WorkflowState)
      (node : PageNode), List.lookup url s.pages = some node → ¬ maxd < depth →
      exploreFuel env start maxd (fuel + 1) url depth parent s
        = exploreChildren
            (fun h t => exploreFuel env start maxd fuel h (depth + 1) (some url) t)
            start url node.clickable_elements s) := by
  refine ⟨fun env url parent s h => explorePage_visited h, ?_⟩
  intro env start maxd fuel url depth parent s node hlk hd
  have hvis : explorePage env url parent s = s :=
    explorePage_visited (Option.isSome_iff_exists.mpr ⟨node, hlk⟩)
  simp only [exploreFuel, if_neg hd, hvis, hlk]

/-- C2 counterexample: with `http://a` already recorded and its stored
clickable element pointing at the unvisited `http://a/b`, a fresh `explore`
call on `http://a` extends both `pages` and `tree_structure`, so the claim
that a call on an already-present url leaves both maps unchanged is false. -/
theorem claim_C2_counterexample :
    (List.lookup "http://a" cexStateA.pages).isSome = true ∧
    cexStateA.tree_structure = [] ∧
    (exploreRecursively cexEnv "http://a" 2 cexStateA).1.tree_structure
      = [("http://a", ["http://a/b"])] ∧
    (List.lookup "http://a/b"
      (exploreRecursively cexEnv "http://a" 2 cexStateA).1.pages).isSome = true ∧
    (List.lookup "http://a/b" cexStateA.pages).isSome = false := by
  decide

/-- C2 witness: re-entry of `explore_page` on the recorded url of the concrete
state leaves it unchanged. -/
theorem claim_C2_idempotent_visit_witness :
    (List.lookup "http://a" cexStateA.pages).isSome = true ∧
    explorePage cexEnv "http://a" none cexStateA = cexStateA :=
  ⟨by decide,
    claim_C2_idempotent_visit.1 cexEnv "http://a" none cexStateA (by decide)⟩

/-- C3: tree consistency is an invariant: it holds of the initial empty state
and is preserved by every `explore_page` step and by every run of the inner
recursive `explore`, at any fuel, depth and parent. -/
theorem claim_C3_tree_invariant :
    TreeInvariant ⟨[], []⟩ ∧
    (∀ (env : String → Option VisitData) (url : String) (parent : Option String)
      (s : WorkflowState), TreeInvariant s →
      TreeInvariant (explorePage env url parent s)) ∧
    (∀ (env : String → Option VisitData) (start : String) (maxd fuel : Nat)
      (url : String) (depth : Nat) (parent : Option String) (s : WorkflowState),
      TreeInvariant s →
      TreeInvariant (exploreFuel env start maxd fuel url depth parent s).1) := by
  refine ⟨?_, treeInvariant_explorePage, ?_⟩
  · exact ⟨fun _ _ hm => absurd hm (List.not_mem_nil _),
      fun _ _ hm => absurd hm (List.not_mem_nil _)⟩
  · intro env start maxd fuel url depth parent s hs
    exact treeInvariant_exploreFuel env start maxd fuel url depth parent s hs

/-- C3 witness: the invariant holds of the state reached by a concrete run
from the empty state. -/
theorem claim_C3_tree_invariant_witness :
    TreeInvariant (exploreRecursively cexEnv "http://a" 2 ⟨[], []⟩).1 :=
  claim_C3_tree_invariant.2.2 cexEnv "http://a" 2 4 "http://a" 1 none ⟨[], []⟩
    ⟨fun _ _ hm => absurd hm (List.not_mem_nil _),
      fun _ _ hm => absurd hm (List.not_mem_nil _)⟩

/-- C4: the children loop recurses exactly on the hrefs of the recorded
clickable elements that are present, non-empty and inside the start-url
origin, in element order (first conjunct); when the origin url is non-empty,
non-emptiness of the href is subsumed by the origin test, so the targets are
exactly the in-origin hrefs (second conjunct); and one step of `explore` at an
admissible depth is exactly the sequential recursion over those targets with
depth+1 and parent set to the current url (third conjunct). -/
theorem claim_C4_recursion_targets :
    (∀ (rec : String → WorkflowState → ExploreResult) (start url : String)
      (elems : List DOMHistoryElement) (s : WorkflowState),
      exploreChildren rec start url elems s
        = runCalls rec (recursionTargets start elems) s) ∧
    (∀ start : String, start ≠ "" → ∀ elems : List DOMHistoryElement,
      recursionTargets start elems = elems.filterMap (fun e =>
        match List.lookup "href" e.attributes with
        | none => none
        | some h => if pyStartsWith h start then some h else none)) ∧
    (∀ (env : String → Option VisitData) (start : String) (maxd fuel : Nat)
      (url : String) (depth : Nat) (parent : Option String) (s : WorkflowState)
      (node : PageNode), ¬ maxd < depth →
      List.lookup url (explorePage env url parent s).pages = some node →
      exploreFuel env start maxd (fuel + 1) url depth parent s
        = runCalls
            (fun h t => exploreFuel env start maxd fuel h (depth + 1) (some url) t)
            (recursionTargets start node.clickable_elements)
            (explorePage env url parent s)) := by
  refine ⟨exploreChildren_eq_runCalls, ?_, ?_⟩
  · intro start hstart elems
    unfold recursionTargets
    apply List.filterMap_congr
    intro e _
    cases hlk : List.lookup "href" e.attributes with
    | none => rfl
    | some h =>
      show (if h ≠ "" ∧ pyStartsWith h start = true then some h else none)
        = (if pyStartsWith h start = true then some h else none)
      by_cases hsw : pyStartsWith h start = true
      · have hne : h ≠ "" := by
          intro he
          subst he
          rw [pyStartsWith_empty_left hstart] at hsw
          exact Bool.false_ne_true hsw
        rw [if_pos ⟨hne, hsw⟩, if_pos hsw]
      · rw [if_neg (fun hc => hsw hc.2), if_neg hsw]
  · intro env start maxd fuel url depth parent s node hd hlk
    simp only [exploreFuel, if_neg hd, hlk]
    exact exploreChildren_eq_runCalls _ start url node.clickable_elements _

/-- C4 witness: with the non-empty origin `http://a`, the recursion targets of
the concrete element list are its in-origin hrefs. -/
theorem claim_C4_recursion_targets_witness :
    "http://a" ≠ "" ∧
    recursionTargets "http://a" [cexHrefElem] = [cexHrefElem].filterMap (fun e =>
      match List.lookup "href" e.attributes with
      | none => none
      | some h => if pyStartsWith h "http://a" then some h else none) :=
  ⟨by decide,
    claim_C4_recursion_targets.2.1 "http://a" (by decide) [cexHrefElem]⟩

/-- C10: `explore_recursively` terminates with recursion height bounded by the
depth budget alone: the result is independent of any fuel of at least
`max_depth + 2`, for every environment, start url and initial state — cyclic
link structures included — and the definition uses exactly that fuel. -/
theorem claim_C10_termination :
    ∀ (env : String → Option VisitData) (start : String) (maxd : Nat)
      (s : WorkflowState),
      (∀ f g, maxd + 2 ≤ f → maxd + 2 ≤ g →
        exploreFuel env start maxd f start 1 none s
          = exploreFuel env start maxd g start 1 none s) ∧
      exploreRecursively env start maxd s
        = exploreFuel env start maxd (maxd + 2) start 1 none s := by
  intro env start maxd s
  refine ⟨fun f g hf hg => ?_, rfl⟩
  exact exploreFuel_fuel_irrelevant env start maxd f g start 1 none s
    (by omega) (by omega) (by omega) (by omega)

/-- C10 witness: on a concrete cyclic-capable environment the result with fuel
2 equals the result with fuel 5 at depth bound 0. -/
theorem claim_C10_termination_witness :
    0 + 2 ≤ 2 ∧ 0 + 2 ≤ 5 ∧
    exploreFuel cexEnv "http://a" 0 2 "http://a" 1 none ⟨[], []⟩
      = exploreFuel cexEnv "http://a" 0 5 "http://a" 1 none ⟨[], []⟩ :=
  ⟨by decide, by decide,
    (claim_C10_termination cexEnv "http://a" 0 ⟨[], []⟩).1 2 5 (by decide) (by decide)⟩

/-- C5 (amended): in the click-driven traversal, a failed click on an element
is non-fatal — the loop continues with the remaining siblings (first
conjunct); a failed back-navigation ends only the current call — the
remaining siblings of the current level are dropped and the state produced so
far is returned as is (second conjunct), after which the caller's loop
resumes; every already-recorded page and tree edge is preserved by any
traversal (third conjunct). -/
theorem claim_C5_error_handling :
    (∀ (rec : PPage → PlayerState → PlayerState) (url : String) (e : PElement)
      (rest : List PElement) (vis : List String) (tr : List (String × String))
      (cs : List (Option PPage)) (bks : List Bool) (sel : String),
      e.selector = some sel → sel ≠ "" →
      playerExploreElements rec url (e :: rest) ⟨vis, tr, none :: cs, bks⟩
        = playerExploreElements rec url rest ⟨vis, tr, cs, bks⟩) ∧
    (∀ (rec : PPage → PlayerState → PlayerState) (url : String) (e : PElement)
      (rest : List PElement) (vis : List String) (tr : List (String × String))
      (cs : List (Option PPage)) (bks : List Bool) (sel : String) (p : PPage)
      (bs : List Bool),
      e.selector = some sel → sel ≠ "" →
      (rec p ⟨vis, tr ++ [(url, p.url)], cs, bks⟩).backs = false :: bs →
      playerExploreElements rec url (e :: rest) ⟨vis, tr, some p :: cs, bks⟩
        = { rec p ⟨vis, tr ++ [(url, p.url)], cs, bks⟩ with backs := bs }) ∧
    (∀ (fuel : Nat) (page : PPage) (s : PlayerState),
      playerPreserves s (playerExplorePage fuel page s)) := by
  refine ⟨?_, ?_, playerPreserves_explorePage⟩
  · intro rec url e rest vis tr cs bks sel he hne
    simp [playerExploreElements, he, hne, popClick]
  · intro rec url e rest vis tr cs bks sel p bs he hne hb
    simp only [playerExploreElements, he, if_neg hne, popClick]
    cases hr : rec p ⟨vis, tr ++ [(url, p.url)], cs, bks⟩ with
    | mk v3 t3 c3 b3 =>
      rw [hr] at hb
      simp only at hb
      subst hb
      simp [popBack]

/-- C5 counterexample: in the concrete run, the back navigation from C to B
fails (first scripted back outcome), yet page D — a sibling at the ancestor
level A — is still clicked, visited and recorded afterwards, so the claim that
a failed back-navigation stops the traversal at every ancestor level is
false.  (B's own second element is indeed skipped: only three clicks are ever
consumed.) -/
theorem claim_C5_counterexample :
    cexPlayerStart.backs = [false, true, true] ∧
    playerExplorePage 5 pageA cexPlayerStart
      = ⟨["A", "B", "C", "D"], [("A", "B"), ("B", "C"), ("A", "D")], [], []⟩ ∧
    "D" ∈ (playerExplorePage 5 pageA cexPlayerStart).visited ∧
    ("A", "D") ∈ (playerExplorePage 5 pageA cexPlayerStart).tree := by
  decide

/-- C5 witness: a failed click on the single element of a level continues
with the (empty) remainder of that level. -/
theorem claim_C5_error_handling_witness :
    (⟨some "x"⟩ : PElement).selector = some "x" ∧ "x" ≠ "" ∧
    playerExploreElements (fun _ s => s) "A" [⟨some "x"⟩] ⟨[], [], [none], []⟩
      = playerExploreElements (fun _ s => s) "A" [] ⟨[], [], [], []⟩ :=
  ⟨rfl, by decide,
    claim_C5_error_handling.1 (fun _ s => s) "A" ⟨some "x"⟩ [] [] [] [] [] "x"
      rfl (by decide)⟩

/-- C6 (amended): with the DeepSeek API key configured, the first
unsupported-region failure while unswitched permanently installs the DeepSeek
model and retries exactly once, the retry outcome (success or either failure)
being returned or propagated with the switch kept; a failure of another kind
propagates with no switch and no retry; an unsupported-region failure after
the switch propagates with no retry; a success returns immediately. -/
theorem claim_C6_fallback_behavior :
    (∀ (m : LLMModel) (r : String),
      invokeLLM true LLMOutcome.failUnsupportedRegion (LLMOutcome.ok r) ⟨m, false⟩
        = ⟨InvokeResult.ok r, ⟨LLMModel.deepseek, true⟩, 2⟩) ∧
    (∀ m : LLMModel,
      invokeLLM true LLMOutcome.failUnsupportedRegion
          LLMOutcome.failUnsupportedRegion ⟨m, false⟩
        = ⟨InvokeResult.raised LLMFailure.unsupportedRegion,
            ⟨LLMModel.deepseek, true⟩, 2⟩) ∧
    (∀ m : LLMModel,
      invokeLLM true LLMOutcome.failUnsupportedRegion LLMOutcome.failOther ⟨m, false⟩
        = ⟨InvokeResult.raised LLMFailure.other, ⟨LLMModel.deepseek, true⟩, 2⟩) ∧
    (∀ (k : Bool) (o2 : LLMOutcome) (s : AdapterState),
      invokeLLM k LLMOutcome.failOther o2 s
        = ⟨InvokeResult.raised LLMFailure.other, s, 1⟩) ∧
    (∀ (k : Bool) (o2 : LLMOutcome) (m : LLMModel),
      invokeLLM k LLMOutcome.failUnsupportedRegion o2 ⟨m, true⟩
        = ⟨InvokeResult.raised LLMFailure.unsupportedRegion, ⟨m, true⟩, 1⟩) ∧
    (∀ (k : Bool) (r : String) (o2 : LLMOutcome) (s : AdapterState),
      invokeLLM k (LLMOutcome.ok r) o2 s = ⟨InvokeResult.ok r, s, 1⟩) := by
  refine ⟨fun m r => rfl, fun m => rfl, fun m => rfl, fun k o2 s => rfl,
    fun k o2 m => rfl, fun k r o2 s => rfl⟩

/-- C6 counterexample: without the DeepSeek API key, the first
unsupported-region failure from the unswitched primary model propagates after
a single call — no switch happens (`llm_switched_to_deepseek` stays false)
and no retry is issued — so the claim that the first such failure always
switches and retries once is false. -/
theorem claim_C6_counterexample :
    invokeLLM false LLMOutcome.failUnsupportedRegion (LLMOutcome.ok "retry")
        ⟨LLMModel.primary, false⟩
      = ⟨InvokeResult.raised LLMFailure.unsupportedRegion,
          ⟨LLMModel.primary, false⟩, 1⟩ ∧
    (invokeLLM false LLMOutcome.failUnsupportedRegion (LLMOutcome.ok "retry")
        ⟨LLMModel.primary, false⟩).state.llm_switched_to_deepseek = false ∧
    (invokeLLM false LLMOutcome.failUnsupportedRegion (LLMOutcome.ok "retry")
        ⟨LLMModel.primary, false⟩).calls = 1 := by
  decide

/-- C7: when the extracted body of a model response fails to parse, both
analysis paths persist exactly the offending text to their timestamped file
under `llm_json_errors` and return `none` without raising; when it parses, no
error artifact is written by either path. -/
theorem claim_C7_parse_failure_handling :
    ∀ (parse : String → Option JsonValue) (ts eid etype content : String),
      (parse (extractJsonFromLLMResponse content) = none →
        analyzeElementWithLLM parse ts eid etype content
          = (Except.ok none,
              [("llm_json_errors/element_analysis_error_" ++ ts ++ ".json",
                extractJsonFromLLMResponse content)]) ∧
        analyzePagePurposeWithLLM parse ts content
          = (Except.ok none,
              [("llm_json_errors/page_purpose_error_" ++ ts ++ ".json",
                extractJsonFromLLMResponse content)])) ∧
      (∀ j, parse (extractJsonFromLLMResponse content) = some j →
        (analyzeElementWithLLM parse ts eid etype content).2 = [] ∧
        (analyzePagePurposeWithLLM parse ts content).2 = []) := by
  intro parse ts eid etype content
  refine ⟨fun h => ?_, fun j hj => ?_⟩
  · constructor
    · simp [analyzeElementWithLLM, analyzeElementFromJson, h]
    · simp [analyzePagePurposeWithLLM, analyzePagePurposeFromJson, h]
  · constructor
    · simp only [analyzeElementWithLLM, analyzeElementFromJson, hj]
      split
      · rfl
      · rfl
    · simp only [analyzePagePurposeWithLLM, analyzePagePurposeFromJson, hj]
      split
      · rfl
      · rfl

/-- C7 witness: an always-failing parser produces exactly the element error
artifact; an always-succeeding parser produces no artifact. -/
theorem claim_C7_parse_failure_handling_witness :
    analyzeElementWithLLM (fun _ => none) "ts" "1" "div" "notjson"
      = (Except.ok none,
          [("llm_json_errors/element_analysis_error_" ++ "ts" ++ ".json",
            extractJsonFromLLMResponse "notjson")]) ∧
    (analyzeElementWithLLM (fun _ => some (JsonValue.obj [])) "ts" "1" "div"
      "resp").2 = [] :=
  ⟨((claim_C7_parse_failure_handling (fun _ => none) "ts" "1" "div" "notjson").1
      rfl).1,
    ((claim_C7_parse_failure_handling (fun _ => some (JsonValue.obj [])) "ts" "1"
      "div" "resp").2 (JsonValue.obj []) rfl).1⟩

/-- C9: the allow-list predicate — absent pattern list: every parseable URL
is allowed; unparseable URLs are always rejected; a bare-domain pattern
matches exactly the port-stripped host and nothing else; and the spec's test
vectors for patterns `example.com` and `*.mysite.org`, including the
wildcard's match of the bare apex and of a subdomain and the port-ignoring
exact match. -/
theorem claim_C9_allowlist :
    (∀ url : String, (urlHost url).isSome → isUrlAllowed url none = true) ∧
    (∀ (url : String) (ps : List String), urlHost url = none →
      isUrlAllowed url (some ps) = false) ∧
    (∀ pattern host : String, pyStartsWith pattern "*." = false →
      (matchesDomainPattern pattern host = true ↔ host = pattern)) ∧
    (isUrlAllowed "http://example.com" (some ["example.com", "*.mysite.org"]) = true ∧
      isUrlAllowed "http://sub.example.com/path"
        (some ["example.com", "*.mysite.org"]) = false ∧
      isUrlAllowed "http://sub.mysite.org"
        (some ["example.com", "*.mysite.org"]) = true ∧
      isUrlAllowed "https://mysite.org/page"
        (some ["example.com", "*.mysite.org"]) = true ∧
      isUrlAllowed "http://example.com:8080"
        (some ["example.com", "*.mysite.org"]) = true ∧
      isUrlAllowed "https://example.com:443"
        (some ["example.com", "*.mysite.org"]) = true ∧
      isUrlAllowed "notaurl" (some ["example.com", "*.mysite.org"]) = false ∧
      isUrlAllowed "http://anydomain.com" none = true) := by
  refine ⟨?_, ?_, ?_, by decide⟩
  · intro url h
    simpa [isUrlAllowed] using h
  · intro url ps h
    simp [isUrlAllowed, h]
  · intro pattern host hsw
    simp [matchesDomainPattern, hsw]

/-- C9 witness: the general clauses applied to concrete URLs — a parseable
URL with no pattern list, an unparseable URL with patterns, and a bare-domain
pattern matching only itself. -/
theorem claim_C9_allowlist_witness :
    (urlHost "http://anydomain.com").isSome = true ∧
    isUrlAllowed "http://anydomain.com" none = true ∧
    urlHost "notaurl" = none ∧
    isUrlAllowed "notaurl" (some ["example.com"]) = false ∧
    pyStartsWith "example.com" "*." = false ∧
    (matchesDomainPattern "example.com" "sub.example.com" = true ↔
      "sub.example.com" = "example.com") :=
  ⟨by decide,
    claim_C9_allowlist.1 "http://anydomain.com" (by decide),
    by decide,
    claim_C9_allowlist.2.1 "notaurl" ["example.com"] (by decide),
    by decide,
    claim_C9_allowlist.2.2.1 "example.com" "sub.example.com" (by decide)⟩
